import Mathlib

/-!
Shallow embedding of the Socket.io chat server (`server/server.js`) and proofs
about its event handlers.

Modelling conventions:
* JavaScript strings are Lean `String`s; the JS operations `trim`, `slice`,
  `length` and the `||` default idiom are modelled on the character list
  (`jsTrim`, `jsSlice`, `jsLength`, `jsOr`, `jsOrElse`).  Only ASCII data
  appears in the theorems, where JS UTF-16 units and Lean characters agree.
* A payload field that may be absent (`undefined`) is an `Option String`;
  `none` is falsy, and so is `some ""`.
* The mutable server stores (`users`, `messages`, `typingUsers`), the
  per-socket `socket.data`, and the Socket.io adapter's room table are one
  explicit `ServerState`.  Socket.io semantics used by the code: a socket
  joins the room named by its own id on connection, `socket.join` adds it to
  a named room (a socket can be in many adapter rooms), `socket.leave`
  removes it from one, `io.to(room)` targets all members of the room,
  `socket.to(room)` targets all members except the caller, `io.emit` targets
  every connected socket.
* Each event handler is a pure function from the state and the event payload
  to a `HandlerResult`: the new state, the ordered list of emitted events
  (each with its recipient list, computed at emit time), and the list of
  acknowledgment callback invocations.  `cb : Bool` records whether the
  caller supplied an ack callback (`typeof callback === 'function'`).
* `Date.now()`/`Math.random()`/`toISOString()` are passed in as the `msgId`
  and `ts` arguments.
-/

namespace ChatServer

/-- JS truthiness of an optional string field: absent and `""` are falsy. -/
def jsTruthyStr (v : Option String) : Bool :=
  match v with
  | none => false
  | some s => s != ""

/-- `String(x || d)` for an optional string field `x`. -/
def jsOr (v : Option String) (d : String) : String :=
  match v with
  | none => d
  | some s => if s = "" then d else s

/-- `a || b || null` on optional string fields. -/
def jsOrElse (a b : Option String) : Option String :=
  if jsTruthyStr a then a else if jsTruthyStr b then b else none

/-- White-space characters removed by JS `String.prototype.trim` (ASCII part). -/
def isJsWhitespace (c : Char) : Bool :=
  c = ' ' || c = '\t' || c = '\n' || c = '\r' || c = '\x0b' || c = '\x0c'

/-- JS `s.trim()`. -/
def jsTrim (s : String) : String :=
  ⟨((s.data.dropWhile isJsWhitespace).reverse.dropWhile isJsWhitespace).reverse⟩

/-- JS `s.slice(0, n)`. -/
def jsSlice (n : Nat) (s : String) : String :=
  ⟨s.data.take n⟩

/-- JS `s.length`. -/
def jsLength (s : String) : Nat :=
  s.data.length

/-- `MAX_STORED_MESSAGES` (default: no `MAX_STORED_MESSAGES` env var). -/
def MAX_STORED_MESSAGES : Nat := 200

/-- `MAX_MESSAGE_LENGTH` (default: no `MAX_MESSAGE_LENGTH` env var). -/
def MAX_MESSAGE_LENGTH : Nat := 1000

/-- A stored/emitted chat message object. -/
structure Message where
  id : Nat
  text : String
  sender : String
  senderId : String
  timestamp : String
  room : Option String := none
  isPrivate : Bool := false
  recipientId : Option String := none
deriving DecidableEq

/-- One socket's `socket.data` together with its id. -/
structure Sock where
  sid : String
  username : Option String := none
  room : Option String := none
deriving DecidableEq

/-- The server's mutable stores plus per-socket data and the adapter rooms. -/
structure ServerState where
  socks : List Sock := []
  users : List (String × String) := []
  messages : List Message := []
  typingUsers : List (String × String) := []
  rooms : List (String × List String) := []
deriving DecidableEq

def initState : ServerState := {}

/-- `Map.prototype.has`. -/
def mapHas (m : List (String × String)) (k : String) : Bool :=
  m.any (fun q => q.1 == k)

/-- `Map.prototype.get`. -/
def mapGet (m : List (String × String)) (k : String) : Option String :=
  (m.find? (fun q => q.1 == k)).map (fun q => q.2)

/-- `Map.prototype.set`: overwrite in place, or append preserving order. -/
def mapSet (m : List (String × String)) (k v : String) : List (String × String) :=
  if m.any (fun q => q.1 == k) then
    m.map (fun q => if q.1 == k then (k, v) else q)
  else
    m ++ [(k, v)]

/-- `Map.prototype.delete`. -/
def mapDelete (m : List (String × String)) (k : String) : List (String × String) :=
  m.filter (fun q => q.1 != k)

/-- `io.sockets.adapter.rooms.get(room)` as a member list (empty if absent). -/
def roomMembers (rooms : List (String × List String)) (room : String) : List String :=
  ((rooms.find? (fun q => q.1 == room)).map (fun q => q.2)).getD []

/-- `socket.join(room)`: add the socket to the room's set (create it if new). -/
def roomsJoin (rooms : List (String × List String)) (room sid : String) :
    List (String × List String) :=
  if rooms.any (fun q => q.1 == room) then
    rooms.map (fun q =>
      if q.1 == room then (q.1, if q.2.contains sid then q.2 else q.2 ++ [sid]) else q)
  else
    rooms ++ [(room, [sid])]

/-- `socket.leave(room)`: remove the socket; the adapter drops empty rooms. -/
def roomsLeave (rooms : List (String × List String)) (room sid : String) :
    List (String × List String) :=
  (rooms.map (fun q => if q.1 == room then (q.1, q.2.filter (fun x => x != sid)) else q)).filter
    (fun q => !q.2.isEmpty)

def findSock (l : List Sock) (sid : String) : Option Sock :=
  l.find? (fun s => s.sid == sid)

/-- Read a socket's `socket.data` (fresh/empty data if unknown). -/
def getSock (st : ServerState) (sid : String) : Sock :=
  (findSock st.socks sid).getD { sid := sid }

def updateSocks (l : List Sock) (sid : String) (f : Sock → Sock) : List Sock :=
  l.map fun s => if s.sid == sid then f s else s

/-- Mutate a socket's `socket.data`. -/
def updateSock (st : ServerState) (sid : String) (f : Sock → Sock) : ServerState :=
  { st with socks := updateSocks st.socks sid f }

def allSids (st : ServerState) : List String :=
  st.socks.map (fun s => s.sid)

/-- A new connection: the adapter auto-joins the socket to the room named by
its own id (this is what makes `io.to(socketId)` work). -/
def connect (st : ServerState) (sid : String) : ServerState :=
  { st with
    socks := st.socks ++ [{ sid := sid }]
    rooms := roomsJoin st.rooms sid sid }

/-- An acknowledgment callback invocation (`{ok:true,...}` / `{ok:false,error}`). -/
inductive Ack where
  | success
  | failure (error : String)
deriving DecidableEq

/-- An outbound emission: event name and payload, with the recipient socket
ids as computed from the state at emit time. -/
inductive Emit where
  | userList (recipients : List String) (payload : List (String × String))
  | userJoined (recipients : List String) (username sid : String)
  | userLeft (recipients : List String) (username sid : String)
  | userJoinedRoom (recipients : List String) (username sid room : String)
  | userLeftRoom (recipients : List String) (username sid room : String)
  | receiveMessage (recipients : List String) (m : Message)
  | privateMessageEv (recipients : List String) (m : Message)
  | typingUsersEv (recipients : List String) (names : List String)
deriving DecidableEq

/-- Result of running one event handler. -/
structure HandlerResult where
  state : ServerState
  emits : List Emit
  acks : List Ack
deriving DecidableEq

structure UserJoinPayload where
  username : Option String := none
  room : Option String := none
deriving DecidableEq

structure SendMessagePayload where
  text : Option String := none
  room : Option String := none
deriving DecidableEq

/-- `{ to, text }`; the JS field `to` is named `toId` here (`to` is reserved in Lean). -/
structure PrivateMessagePayload where
  toId : Option String := none
  text : Option String := none
deriving DecidableEq

structure TypingPayload where
  isTyping : Bool := false
  room : Option String := none
deriving DecidableEq

/-- `messages.push(m); if (messages.length > N) messages.shift();` -/
def pushCapped {α : Type} (N : Nat) (log : List α) (m : α) : List α :=
  let l := log ++ [m]
  if N < l.length then l.drop 1 else l

/-- `const room = messageData.room || socket.data.room || null;` -/
def resolvedRoom (st : ServerState) (sid : String) (payloadRoom : Option String) :
    Option String :=
  jsOrElse payloadRoom (getSock st sid).room

/-- The `user_join` handler. -/
def userJoin (st : ServerState) (sid : String) (p : UserJoinPayload) (cb : Bool) :
    HandlerResult :=
  let username := jsSlice 50 (jsTrim (jsOr p.username "Anonymous"))
  if username = "" then
    { state := st, emits := [], acks := if cb then [.failure "Invalid username"] else [] }
  else
    let st1 := updateSock st sid (fun s => { s with username := some username })
    let st2 := { st1 with users := mapSet st1.users sid username }
    if jsTruthyStr p.room then
      let room := (p.room).getD ""
      let st3 := updateSock { st2 with rooms := roomsJoin st2.rooms room sid } sid
        (fun s => { s with room := some room })
      { state := st3
        emits := [Emit.userJoinedRoom ((roomMembers st3.rooms room).filter (fun x => x != sid))
                    username sid room,
                  Emit.userList (allSids st3) st3.users,
                  Emit.userJoined (allSids st3) username sid]
        acks := if cb then [.success] else [] }
    else
      { state := st2
        emits := [Emit.userList (allSids st2) st2.users,
                  Emit.userJoined (allSids st2) username sid]
        acks := if cb then [.success] else [] }

/-- The `join_room` handler; `room = none` models an absent or non-string argument. -/
def joinRoom (st : ServerState) (sid : String) (room : Option String) (cb : Bool) :
    HandlerResult :=
  match room with
  | none =>
    { state := st, emits := [], acks := if cb then [.failure "Invalid room"] else [] }
  | some r =>
    if r = "" then
      { state := st, emits := [], acks := if cb then [.failure "Invalid room"] else [] }
    else
      let st1 := updateSock { st with rooms := roomsJoin st.rooms r sid } sid
        (fun s => { s with room := some r })
      let username := jsOr (getSock st1 sid).username "Anonymous"
      { state := st1
        emits := [Emit.userJoinedRoom ((roomMembers st1.rooms r).filter (fun x => x != sid))
                    username sid r]
        acks := if cb then [.success] else [] }

/-- The `leave_room` handler: note `delete socket.data.room` is unconditional. -/
def leaveRoom (st : ServerState) (sid : String) (room : Option String) (cb : Bool) :
    HandlerResult :=
  match room with
  | none =>
    { state := st, emits := [], acks := if cb then [.failure "Invalid room"] else [] }
  | some r =>
    if r = "" then
      { state := st, emits := [], acks := if cb then [.failure "Invalid room"] else [] }
    else
      let st1 := updateSock { st with rooms := roomsLeave st.rooms r sid } sid
        (fun s => { s with room := none })
      let username := jsOr (getSock st1 sid).username "Anonymous"
      { state := st1
        emits := [Emit.userLeftRoom ((roomMembers st1.rooms r).filter (fun x => x != sid))
                    username sid r]
        acks := if cb then [.success] else [] }

/-- The `send_message` handler. -/
def sendMessage (st : ServerState) (sid : String) (p : SendMessagePayload) (cb : Bool)
    (msgId : Nat) (ts : String) : HandlerResult :=
  let text := jsTrim (jsOr p.text "")
  if text = "" then
    { state := st, emits := [], acks := if cb then [.failure "Empty message"] else [] }
  else if MAX_MESSAGE_LENGTH < jsLength text then
    { state := st, emits := [], acks := if cb then [.failure "Message too long"] else [] }
  else
    let sender := jsOr (getSock st sid).username "Anonymous"
    let room := resolvedRoom st sid p.room
    let m : Message :=
      { id := msgId, text := text, sender := sender, senderId := sid,
        timestamp := ts, room := room, isPrivate := false }
    let st1 := { st with messages := pushCapped MAX_STORED_MESSAGES st.messages m }
    { state := st1
      emits := match room with
        | some r => [Emit.receiveMessage (roomMembers st1.rooms r) m]
        | none => [Emit.receiveMessage (allSids st1) m]
      acks := if cb then [.success] else [] }

/-- The `private_message` handler: `io.to(to)` targets the adapter room named
by the recipient's socket id; `socket.emit` targets the sender. -/
def privateMessage (st : ServerState) (sid : String) (p : PrivateMessagePayload)
    (cb : Bool) (msgId : Nat) (ts : String) : HandlerResult :=
  let toId := jsTrim (jsOr p.toId "")
  let text := jsTrim (jsOr p.text "")
  if toId = "" ∨ text = "" then
    { state := st, emits := [], acks := if cb then [.failure "Invalid payload"] else [] }
  else if mapHas st.users toId then
    let sender := jsOr (getSock st sid).username "Anonymous"
    let m : Message :=
      { id := msgId, text := text, sender := sender, senderId := sid,
        timestamp := ts, isPrivate := true, recipientId := some toId }
    { state := st
      emits := [Emit.privateMessageEv (roomMembers st.rooms toId) m,
                Emit.privateMessageEv [sid] m]
      acks := if cb then [.success] else [] }
  else
    { state := st, emits := [], acks := if cb then [.failure "Recipient not connected"] else [] }

/-- The `typing` handler (fire-and-forget, no ack). -/
def typing (st : ServerState) (sid : String) (p : TypingPayload) : HandlerResult :=
  let room := resolvedRoom st sid p.room
  let username := jsOr (getSock st sid).username "Anonymous"
  let st1 := { st with
    typingUsers :=
      if p.isTyping then mapSet st.typingUsers sid username
      else mapDelete st.typingUsers sid }
  match room with
  | some r =>
    let roomSocks := roomMembers st1.rooms r
    let names := (roomSocks.filter (fun i => mapHas st1.typingUsers i)).map
      (fun i => (mapGet st1.typingUsers i).getD "")
    { state := st1, emits := [Emit.typingUsersEv (roomMembers st1.rooms r) names], acks := [] }
  | none =>
    { state := st1
      emits := [Emit.typingUsersEv (allSids st1) (st1.typingUsers.map (fun q => q.2))]
      acks := [] }

/-- All socket ids a `private_message` event was delivered to. -/
def privDeliveries (es : List Emit) : List String :=
  es.foldr (fun e acc =>
    match e with
    | Emit.privateMessageEv recips _ => recips ++ acc
    | _ => acc) []

/-! ## General lemmas about the embedded operations -/

theorem pushCapped_foldl {α : Type} (N : Nat) (ms : List α) :
    ∀ log : List α, log.length ≤ N →
      List.foldl (pushCapped N) log ms = (log ++ ms).drop (log.length + ms.length - N) := by
  induction ms with
  | nil =>
    intro log h
    simp [Nat.sub_eq_zero_of_le h]
  | cons m ms ih =>
    intro log h
    rw [List.foldl_cons]
    by_cases hc : log.length + 1 ≤ N
    · have hpc : pushCapped N log m = log ++ [m] := by
        unfold pushCapped
        rw [if_neg]
        simp
        omega
      rw [hpc, ih (log ++ [m]) (by simp; omega)]
      have harr : (log ++ [m]) ++ ms = log ++ m :: ms := by simp
      rw [harr]
      congr 1
      simp
      omega
    · have hpc : pushCapped N log m = (log ++ [m]).drop 1 := by
        unfold pushCapped
        rw [if_pos]
        simp
        omega
      rw [hpc, ih _ (by simp; omega)]
      have hsplit : ((log ++ [m]) ++ ms).drop 1 = (log ++ [m]).drop 1 ++ ms :=
        List.drop_append_of_le_length (by simp)
      rw [← hsplit, List.drop_drop]
      have harr : (log ++ [m]) ++ ms = log ++ m :: ms := by simp
      rw [harr]
      congr 1
      simp
      omega

theorem findSock_updateSocks (l : List Sock) (sid : String) (f : Sock → Sock)
    (hf : ∀ s, (f s).sid = s.sid) :
    findSock (updateSocks l sid f) sid = (findSock l sid).map f := by
  induction l with
  | nil => rfl
  | cons s rest ih =>
    unfold findSock updateSocks at *
    by_cases h : s.sid = sid
    · simp only [List.map_cons, if_pos (by simp [h] : (s.sid == sid) = true)]
      rw [List.find?_cons_of_pos _ (by simp [hf, h]), List.find?_cons_of_pos _ (by simp [h])]
      rfl
    · simp only [List.map_cons, if_neg (by simp [h] : ¬((s.sid == sid) = true))]
      rw [List.find?_cons_of_neg _ (by simp [h]), List.find?_cons_of_neg _ (by simp [h]), ih]

theorem mapSet_cons_ne (q : String × String) (rest : List (String × String)) (k v : String)
    (h : q.1 ≠ k) : mapSet (q :: rest) k v = q :: mapSet rest k v := by
  unfold mapSet
  by_cases hr : rest.any (fun x => x.1 == k) <;> simp [List.any_cons, h, hr]

theorem mapGet_mapSet_self (m : List (String × String)) (k v : String) :
    mapGet (mapSet m k v) k = some v := by
  induction m with
  | nil => simp [mapSet, mapGet]
  | cons q rest ih =>
    by_cases h : q.1 = k
    · unfold mapSet mapGet
      simp [List.any_cons, h]
    · rw [mapSet_cons_ne q rest k v h]
      unfold mapGet at *
      rw [List.find?_cons_of_neg _ (by simp [h])]
      exact ih

theorem filter_mapSet_self (m : List (String × String)) (k v : String)
    (h : (m.map Prod.fst).Nodup) :
    (mapSet m k v).filter (fun q => q.1 == k) = [(k, v)] := by
  induction m with
  | nil => simp [mapSet]
  | cons q rest ih =>
    by_cases hq : q.1 = k
    · have hknotin : k ∉ rest.map Prod.fst := by
        rw [← hq]
        exact (List.nodup_cons.mp (by simpa using h)).1
      have hmapset : mapSet (q :: rest) k v
          = (k, v) :: rest.map (fun x => if x.1 == k then (k, v) else x) := by
        unfold mapSet
        simp [List.any_cons, hq]
      rw [hmapset, List.filter_cons_of_pos (by simp)]
      have hnil : (rest.map (fun x => if x.1 == k then (k, v) else x)).filter
          (fun q => q.1 == k) = [] := by
        rw [List.filter_eq_nil_iff]
        intro a ha
        obtain ⟨x, hx, rfl⟩ := List.mem_map.mp ha
        have hxk : x.1 ≠ k := fun hk => hknotin (hk ▸ List.mem_map_of_mem Prod.fst hx)
        simp [hxk]
      rw [hnil]
    · rw [mapSet_cons_ne q rest k v hq, List.filter_cons_of_neg (by simp [hq])]
      exact ih ((List.nodup_cons.mp (by simpa using h)).2)

theorem roomMembers_cons_ne (q : String × List String) (rest : List (String × List String))
    (room : String) (h : q.1 ≠ room) :
    roomMembers (q :: rest) room = roomMembers rest room := by
  unfold roomMembers
  rw [List.find?_cons_of_neg _ (by simp [h])]

theorem roomsJoin_cons_ne (q : String × List String) (rest : List (String × List String))
    (room x : String) (h : q.1 ≠ room) :
    roomsJoin (q :: rest) room x = q :: roomsJoin rest room x := by
  unfold roomsJoin
  by_cases hr : rest.any (fun p => p.1 == room) <;> simp [List.any_cons, h, hr]

theorem mem_roomMembers_roomsJoin_self (rooms : List (String × List String)) (room x : String) :
    x ∈ roomMembers (roomsJoin rooms room x) room := by
  induction rooms with
  | nil => simp [roomsJoin, roomMembers]
  | cons q rest ih =>
    by_cases h : q.1 = room
    · have hmap : roomsJoin (q :: rest) room x
          = (q.1, if q.2.contains x then q.2 else q.2 ++ [x])
              :: rest.map (fun p =>
                if p.1 == room then (p.1, if p.2.contains x then p.2 else p.2 ++ [x]) else p) := by
        unfold roomsJoin
        simp [List.any_cons, h]
      rw [hmap]
      unfold roomMembers
      rw [List.find?_cons_of_pos _ (by simp [h])]
      show x ∈ (if q.2.contains x = true then q.2 else q.2 ++ [x])
      split
      · rename_i hcond
        simpa using hcond
      · simp
    · rw [roomsJoin_cons_ne q rest room x h, roomMembers_cons_ne q _ room h]
      exact ih

theorem roomMembers_map_mod_ne (rest : List (String × List String)) (room r : String)
    (g : List String → List String) (h : room ≠ r) :
    roomMembers (rest.map (fun p => if p.1 == r then (p.1, g p.2) else p)) room
      = roomMembers rest room := by
  induction rest with
  | nil => rfl
  | cons q rs ih =>
    by_cases hq : q.1 = room
    · have hne : ¬((q.1 == r) = true) := by simp [hq, h]
      simp only [List.map_cons, if_neg hne]
      unfold roomMembers
      rw [List.find?_cons_of_pos _ (by simp [hq]), List.find?_cons_of_pos _ (by simp [hq])]
    · by_cases hqr : q.1 = r
      · simp only [List.map_cons, if_pos (by simp [hqr] : (q.1 == r) = true)]
        rw [roomMembers_cons_ne _ _ _ (by simpa using hq), roomMembers_cons_ne q rs room hq]
        exact ih
      · simp only [List.map_cons, if_neg (by simp [hqr] : ¬((q.1 == r) = true))]
        rw [roomMembers_cons_ne q _ room hq, roomMembers_cons_ne q rs room hq]
        exact ih

theorem roomMembers_append_ne (rooms : List (String × List String)) (room r : String)
    (l : List String) (h : room ≠ r) :
    roomMembers (rooms ++ [(r, l)]) room = roomMembers rooms room := by
  induction rooms with
  | nil =>
    unfold roomMembers
    rw [List.nil_append, List.find?_cons_of_neg _ (by simp [Ne.symm h])]
  | cons q rs ih =>
    by_cases hq : q.1 = room
    · unfold roomMembers
      rw [List.cons_append, List.find?_cons_of_pos _ (by simp [hq]),
        List.find?_cons_of_pos _ (by simp [hq])]
    · rw [List.cons_append, roomMembers_cons_ne q _ room hq, roomMembers_cons_ne q rs room hq]
      exact ih

theorem roomMembers_roomsJoin_ne (rooms : List (String × List String)) (room r x : String)
    (h : room ≠ r) :
    roomMembers (roomsJoin rooms r x) room = roomMembers rooms room := by
  unfold roomsJoin
  split
  · exact roomMembers_map_mod_ne rooms room r
      (fun l => if l.contains x then l else l ++ [x]) h
  · exact roomMembers_append_ne rooms room r [x] h

theorem mem_roomMembers_roomsLeave_ne (rooms : List (String × List String))
    (room r y x : String) (h : room ≠ r) (hx : x ∈ roomMembers rooms room) :
    x ∈ roomMembers (roomsLeave rooms r y) room := by
  induction rooms with
  | nil => simp [roomMembers] at hx
  | cons q rs ih =>
    have hstep : roomsLeave (q :: rs) r y
        = if (!(if q.1 == r then (q.1, q.2.filter (fun z => z != y)) else q).2.isEmpty) = true
          then (if q.1 == r then (q.1, q.2.filter (fun z => z != y)) else q) :: roomsLeave rs r y
          else roomsLeave rs r y := by
      unfold roomsLeave
      rw [List.map_cons, List.filter_cons]
    by_cases hq : q.1 = room
    · have hne : ¬((q.1 == r) = true) := by simp [hq, h]
      have hxq : x ∈ q.2 := by
        unfold roomMembers at hx
        rw [List.find?_cons_of_pos _ (by simp [hq])] at hx
        simpa using hx
      rw [hstep]
      simp only [if_neg hne]
      rw [if_pos (by simpa using List.ne_nil_of_mem hxq)]
      unfold roomMembers
      rw [List.find?_cons_of_pos _ (by simp [hq])]
      simpa using hxq
    · have hx' : x ∈ roomMembers rs room := by
        rwa [roomMembers_cons_ne q rs room hq] at hx
      rw [hstep]
      by_cases hqr : (q.1 == r) = true
      · simp only [if_pos hqr]
        split
        · rw [roomMembers_cons_ne _ _ _ (by simpa using hq)]
          exact ih hx'
        · exact ih hx'
      · simp only [if_neg hqr]
        split
        · rw [roomMembers_cons_ne _ _ _ (by simpa using hq)]
          exact ih hx'
        · exact ih hx'

theorem getSock_update (st : ServerState) (rooms' : List (String × List String))
    (sid : String) (f : Sock → Sock) (hf : ∀ s, (f s).sid = s.sid) :
    getSock (updateSock { st with rooms := rooms' } sid f) sid
      = ((findSock st.socks sid).map f).getD { sid := sid } := by
  unfold getSock updateSock
  show (findSock (updateSocks st.socks sid f) sid).getD _ = _
  rw [findSock_updateSocks _ _ _ hf]

/-! ## Claim theorems -/

/-- C1: for every invocation of an ack-bearing event handler (`user_join`,
`join_room`, `leave_room`, `send_message`, `private_message`) in which the
caller supplies an acknowledgment callback, the handler invokes that callback
exactly once — with a success or a failure payload — on every control path,
never zero times and never more than once. -/
theorem ack_exactly_once
    (st : ServerState) (sid : String) (up : UserJoinPayload) (jr lr : Option String)
    (sp : SendMessagePayload) (pp : PrivateMessagePayload) (msgId : Nat) (ts : String) :
    (userJoin st sid up true).acks.length = 1 ∧
    (joinRoom st sid jr true).acks.length = 1 ∧
    (leaveRoom st sid lr true).acks.length = 1 ∧
    (sendMessage st sid sp true msgId ts).acks.length = 1 ∧
    (privateMessage st sid pp true msgId ts).acks.length = 1 := by
  refine ⟨?_, ?_, ?_, ?_, ?_⟩
  · simp only [userJoin]
    split
    · rfl
    · split <;> rfl
  · cases jr with
    | none => rfl
    | some r =>
      simp only [joinRoom]
      split <;> rfl
  · cases lr with
    | none => rfl
    | some r =>
      simp only [leaveRoom]
      split <;> rfl
  · simp only [sendMessage]
    split
    · rfl
    · split <;> rfl
  · simp only [privateMessage]
    split
    · rfl
    · split <;> rfl

/-- C4: the message log as maintained by `send_message`
(`messages.push` followed by a conditional `messages.shift`, i.e. `pushCapped`)
never exceeds the configured maximum N; after N+1 appends the first appended
message is absent from the log and the most recent N messages are present in
their original order. -/
theorem messageLog_fifo (N : Nat) (first : Message) (rest : List Message)
    (_hN : 1 ≤ N) (hlen : rest.length = N) (hfresh : first ∉ rest) :
    (∀ (log ms : List Message), log.length ≤ N →
        (List.foldl (pushCapped N) log ms).length ≤ N) ∧
    List.foldl (pushCapped N) [] (first :: rest) = rest ∧
    first ∉ List.foldl (pushCapped N) [] (first :: rest) := by
  have h1 : ([] : List Message).length + (first :: rest).length - N = 1 := by
    simp only [List.length_nil, List.length_cons, hlen]
    omega
  have hdrop : List.foldl (pushCapped N) [] (first :: rest) = rest := by
    rw [pushCapped_foldl N (first :: rest) [] (by simp), h1]
    rfl
  refine ⟨?_, hdrop, by rw [hdrop]; exact hfresh⟩
  intro log ms hlog
  rw [pushCapped_foldl N ms log hlog, List.length_drop]
  simp only [List.length_append]
  omega

def msgW (n : Nat) : Message :=
  { id := n, text := "m", sender := "u", senderId := "s", timestamp := "t" }

/-- Witness for C4 at N = 2 with three distinct messages. -/
theorem messageLog_fifo_witness :
    (1 ≤ 2 ∧ ([msgW 2, msgW 3] : List Message).length = 2 ∧ msgW 1 ∉ [msgW 2, msgW 3]) ∧
    ((∀ (log ms : List Message), log.length ≤ 2 →
        (List.foldl (pushCapped 2) log ms).length ≤ 2) ∧
     List.foldl (pushCapped 2) [] (msgW 1 :: [msgW 2, msgW 3]) = [msgW 2, msgW 3] ∧
     msgW 1 ∉ List.foldl (pushCapped 2) [] (msgW 1 :: [msgW 2, msgW 3])) :=
  ⟨⟨by decide, by decide, by decide⟩,
   messageLog_fifo 2 (msgW 1) [msgW 2, msgW 3] (by decide) (by decide) (by decide)⟩

/-- C5: a `send_message` whose trimmed text is non-empty but exceeds
`MAX_MESSAGE_LENGTH` is acknowledged with `{ok:false, error:'Message too
long'}`, appends nothing to the message log, changes no state at all, and
broadcasts nothing. -/
theorem sendMessage_too_long
    (st : ServerState) (sid : String) (p : SendMessagePayload) (msgId : Nat) (ts : String)
    (ht : jsTrim (jsOr p.text "") ≠ "")
    (hlen : MAX_MESSAGE_LENGTH < jsLength (jsTrim (jsOr p.text ""))) :
    sendMessage st sid p true msgId ts
      = { state := st, emits := [], acks := [Ack.failure "Message too long"] } := by
  simp only [sendMessage]
  rw [if_neg ht, if_pos hlen]
  simp

def longText : String := ⟨List.replicate 1001 'a'⟩

set_option maxRecDepth 100000 in
/-- Witness for C5: a 1001-character message is rejected without effect. -/
theorem sendMessage_too_long_witness :
    (jsTrim (jsOr (some longText) "") ≠ "" ∧
      MAX_MESSAGE_LENGTH < jsLength (jsTrim (jsOr (some longText) ""))) ∧
    sendMessage initState "s1" { text := some longText } true 1 "t"
      = { state := initState, emits := [], acks := [Ack.failure "Message too long"] } :=
  ⟨⟨by decide, by decide⟩,
   sendMessage_too_long initState "s1" { text := some longText } 1 "t"
     (by decide) (by decide)⟩

def c2State : ServerState := (joinRoom (connect initState "s1") "s1" (some "A") true).state

/-- C2 counterexample: a connection in room "A" that performs `join_room("B")`
stays in room "A"'s delivery set (it is a member of both "A" and "B"
afterwards), and the handler emits only a `user_joined_room` notice — no
`user_left_room("A")` notice — refuting the claimed implicit leave. -/
theorem joinRoom_no_implicit_leave_cex :
    ("s1" ∈ roomMembers (joinRoom c2State "s1" (some "B") true).state.rooms "A" ∧
     "s1" ∈ roomMembers (joinRoom c2State "s1" (some "B") true).state.rooms "B") ∧
    (joinRoom c2State "s1" (some "B") true).emits
      = [Emit.userJoinedRoom [] "Anonymous" "s1" "B"] := by decide

/-- C2 (amended): `join_room(B)` while the connection is a member of room A's
delivery set (with A stored as its current room) overwrites the stored current
room with B and emits a `user_joined_room(B)` notice, but performs no implicit
leave: no `user_left_room(A)` notice is emitted and the connection is
afterwards a member of both A's and B's delivery sets simultaneously. -/
theorem joinRoom_keeps_old_membership
    (st : ServerState) (sid roomA roomB : String)
    (hs : (findSock st.socks sid).isSome)
    (hmemA : sid ∈ roomMembers st.rooms roomA)
    (hne : roomA ≠ roomB) (hB : roomB ≠ "") :
    (getSock (joinRoom st sid (some roomB) true).state sid).room = some roomB ∧
    sid ∈ roomMembers (joinRoom st sid (some roomB) true).state.rooms roomA ∧
    sid ∈ roomMembers (joinRoom st sid (some roomB) true).state.rooms roomB ∧
    (∃ recips u, (joinRoom st sid (some roomB) true).emits
        = [Emit.userJoinedRoom recips u sid roomB]) ∧
    (joinRoom st sid (some roomB) true).acks = [Ack.success] := by
  simp only [joinRoom, if_neg hB]
  refine ⟨?_, ?_, ?_, ⟨_, _, rfl⟩, rfl⟩
  · rw [getSock_update st (roomsJoin st.rooms roomB sid) sid
      (fun s => { s with room := some roomB }) (fun s => rfl)]
    obtain ⟨s0, hs0⟩ := Option.isSome_iff_exists.mp hs
    rw [hs0]
    rfl
  · show sid ∈ roomMembers (roomsJoin st.rooms roomB sid) roomA
    rw [roomMembers_roomsJoin_ne st.rooms roomA roomB sid hne]
    exact hmemA
  · show sid ∈ roomMembers (roomsJoin st.rooms roomB sid) roomB
    exact mem_roomMembers_roomsJoin_self st.rooms roomB sid

/-- Witness for the amended C2 at a concrete two-join scenario. -/
theorem joinRoom_keeps_old_membership_witness :
    ((findSock c2State.socks "s1").isSome ∧
     "s1" ∈ roomMembers c2State.rooms "A" ∧
     ("A" : String) ≠ "B" ∧ ("B" : String) ≠ "") ∧
    ((getSock (joinRoom c2State "s1" (some "B") true).state "s1").room = some "B" ∧
     "s1" ∈ roomMembers (joinRoom c2State "s1" (some "B") true).state.rooms "A" ∧
     "s1" ∈ roomMembers (joinRoom c2State "s1" (some "B") true).state.rooms "B" ∧
     (∃ recips u, (joinRoom c2State "s1" (some "B") true).emits
         = [Emit.userJoinedRoom recips u "s1" "B"]) ∧
     (joinRoom c2State "s1" (some "B") true).acks = [Ack.success]) :=
  ⟨⟨by decide, by decide, by decide, by decide⟩,
   joinRoom_keeps_old_membership c2State "s1" "A" "B"
     (by decide) (by decide) (by decide) (by decide)⟩

/-- C3 counterexample: a freshly connected socket with no identity sends a
message; it is processed with ack `{ok:true}` and broadcast with sender
"Anonymous" — not rejected with a NotIdentified error. -/
theorem no_identity_gate_cex :
    (getSock (connect initState "s1") "s1").username = none ∧
    (sendMessage (connect initState "s1") "s1" { text := some "hi" } true 1 "t0").acks
      = [Ack.success] ∧
    (sendMessage (connect initState "s1") "s1" { text := some "hi" } true 1 "t0").emits
      = [Emit.receiveMessage ["s1"]
          { id := 1, text := "hi", sender := "Anonymous", senderId := "s1",
            timestamp := "t0" }] := by decide

/-- C3 (amended): the server has no identity gate. Events from a connection
that never established an identity are processed rather than rejected, the
display name falling back to "Anonymous": a valid `send_message` is accepted
and broadcast with sender "Anonymous", and a valid `join_room` is accepted and
announced with username "Anonymous". -/
theorem unidentified_actions_processed
    (st : ServerState) (sid : String) (t r : String) (msgId : Nat) (ts : String)
    (hu : (getSock st sid).username = none)
    (ht : jsTrim t ≠ "") (hlen : jsLength (jsTrim t) ≤ MAX_MESSAGE_LENGTH)
    (hr : r ≠ "") :
    ((sendMessage st sid { text := some t } true msgId ts).acks = [Ack.success] ∧
     ∃ recips m, (sendMessage st sid { text := some t } true msgId ts).emits
         = [Emit.receiveMessage recips m] ∧ m.sender = "Anonymous") ∧
    ((joinRoom st sid (some r) true).acks = [Ack.success] ∧
     ∃ recips, (joinRoom st sid (some r) true).emits
         = [Emit.userJoinedRoom recips "Anonymous" sid r]) := by
  constructor
  · have htne : t ≠ "" := fun h => ht (by rw [h]; rfl)
    have hjs : jsOr (some t) "" = t := by simp [jsOr, htne]
    simp only [sendMessage, hjs]
    rw [if_neg ht, if_neg (by omega : ¬ MAX_MESSAGE_LENGTH < jsLength (jsTrim t))]
    rw [hu]
    refine ⟨rfl, ?_⟩
    cases hroom : resolvedRoom st sid ({ text := some t } : SendMessagePayload).room with
    | none => exact ⟨_, _, rfl, rfl⟩
    | some rr => exact ⟨_, _, rfl, rfl⟩
  · simp only [joinRoom]
    rw [if_neg hr]
    refine ⟨rfl, ?_⟩
    have husn : (getSock (updateSock { st with rooms := roomsJoin st.rooms r sid } sid
        (fun s => { s with room := some r })) sid).username = none := by
      rw [getSock_update st (roomsJoin st.rooms r sid) sid
        (fun s => { s with room := some r }) (fun s => rfl)]
      cases hfs : findSock st.socks sid with
      | none => rfl
      | some s0 =>
        have hs0 : s0.username = none := by
          have hh := hu
          unfold getSock at hh
          rw [hfs] at hh
          exact hh
        simp [hs0]
    rw [husn]
    exact ⟨_, rfl⟩

/-- Witness for the amended C3 on a fresh unidentified connection. -/
theorem unidentified_actions_processed_witness :
    ((getSock (connect initState "s1") "s1").username = none ∧
     jsTrim "hello" ≠ "" ∧ jsLength (jsTrim "hello") ≤ MAX_MESSAGE_LENGTH ∧
     ("R" : String) ≠ "") ∧
    (((sendMessage (connect initState "s1") "s1" { text := some "hello" } true 2 "ts").acks
        = [Ack.success] ∧
      ∃ recips m,
        (sendMessage (connect initState "s1") "s1" { text := some "hello" } true 2 "ts").emits
          = [Emit.receiveMessage recips m] ∧ m.sender = "Anonymous") ∧
     ((joinRoom (connect initState "s1") "s1" (some "R") true).acks = [Ack.success] ∧
      ∃ recips, (joinRoom (connect initState "s1") "s1" (some "R") true).emits
          = [Emit.userJoinedRoom recips "Anonymous" "s1" "R"])) :=
  ⟨⟨by decide, by decide, by decide, by decide⟩,
   unidentified_actions_processed (connect initState "s1") "s1" "hello" "R" 2 "ts"
     (by decide) (by decide) (by decide) (by decide)⟩

theorem jsSlice50_eq_empty_iff (s : String) : jsSlice 50 s = "" ↔ s = "" := by
  constructor
  · intro h
    have hdata : s.data.take 50 = [] := congrArg String.data h
    rcases List.take_eq_nil_iff.mp hdata with h0 | hnil
    · cases h0
    · exact congrArg String.mk hnil
  · intro h
    rw [h]
    rfl

/-- The computed username (`String(payload.username || 'Anonymous').trim().slice(0, 50)`)
is empty exactly when a truthy (non-empty) name was supplied that trims to empty. -/
theorem username_empty_iff (u : Option String) :
    jsSlice 50 (jsTrim (jsOr u "Anonymous")) = ""
      ↔ ∃ s, u = some s ∧ s ≠ "" ∧ jsTrim s = "" := by
  rw [jsSlice50_eq_empty_iff]
  cases u with
  | none =>
    constructor
    · intro h
      exact absurd h (by decide)
    · rintro ⟨s, hcontra, -, -⟩
      cases hcontra
  | some s =>
    by_cases hse : s = ""
    · subst hse
      constructor
      · intro h
        exact absurd h (by decide)
      · rintro ⟨s', hs', hne, -⟩
        cases hs'
        exact absurd rfl hne
    · constructor
      · intro h
        refine ⟨s, rfl, hse, ?_⟩
        simpa [jsOr, hse] using h
      · rintro ⟨s', hs', -, htrim⟩
        cases hs'
        simpa [jsOr, hse] using htrim

/-- C6 counterexample: a supplied empty-string display name trims to the empty
string, yet `user_join` succeeds (the `|| 'Anonymous'` default replaces it), so
the handler does not fail exactly when the supplied name trims to empty. -/
theorem userJoin_empty_name_cex :
    (userJoin (connect initState "s1") "s1" { username := some "" } true).acks
      = [Ack.success] ∧
    mapGet (userJoin (connect initState "s1") "s1" { username := some "" } true).state.users
      "s1" = some "Anonymous" := by decide

/-- C6 (amended): `user_join` fails with 'Invalid username' iff the supplied
display name is a truthy (non-empty) string that trims to the empty string; an
absent or empty-string name is replaced by "Anonymous" instead of failing.
Whenever the computed name is non-empty the handler succeeds and stores the
trimmed name truncated to at most 50 characters. -/
theorem userJoin_identity_validation (st : ServerState) (sid : String) (p : UserJoinPayload) :
    ((userJoin st sid p true).acks = [Ack.failure "Invalid username"]
      ↔ ∃ s, p.username = some s ∧ s ≠ "" ∧ jsTrim s = "") ∧
    (jsSlice 50 (jsTrim (jsOr p.username "Anonymous")) ≠ "" →
      mapGet (userJoin st sid p true).state.users sid
          = some (jsSlice 50 (jsTrim (jsOr p.username "Anonymous"))) ∧
      (userJoin st sid p true).acks = [Ack.success]) := by
  constructor
  · rw [← username_empty_iff p.username]
    by_cases hc : jsSlice 50 (jsTrim (jsOr p.username "Anonymous")) = ""
    · simp only [userJoin, if_pos hc]
      simp [hc]
    · simp only [userJoin, if_neg hc]
      constructor
      · intro hfail
        split at hfail <;> simp at hfail
      · intro h
        exact absurd h hc
  · intro hne
    simp only [userJoin, if_neg hne]
    split
    · exact ⟨mapGet_mapSet_self st.users sid _, rfl⟩
    · exact ⟨mapGet_mapSet_self st.users sid _, rfl⟩

/-- C7 counterexample: a `private_message` whose target id is not registered
but whose text trims to empty is acknowledged 'Invalid payload', not
'Recipient not connected' as the claim requires for every absent target. -/
theorem privateMessage_unknown_recipient_cex :
    mapHas initState.users "ghost" = false ∧
    (privateMessage initState "s1" { toId := some "ghost", text := some "" } true 1 "t").acks
      = [Ack.failure "Invalid payload"] := by decide

/-- C7 (amended): a `private_message` whose trimmed target and text are both
non-empty but whose target id is not a key of the user registry is
acknowledged `{ok:false, error:'Recipient not connected'}`, delivers to no
connection and changes no state (when target or text trims to empty the ack is
instead 'Invalid payload', likewise with no delivery and no state change). -/
theorem privateMessage_unknown_recipient
    (st : ServerState) (sid : String) (p : PrivateMessagePayload) (msgId : Nat) (ts : String)
    (hto : jsTrim (jsOr p.toId "") ≠ "") (htext : jsTrim (jsOr p.text "") ≠ "")
    (habs : mapHas st.users (jsTrim (jsOr p.toId "")) = false) :
    privateMessage st sid p true msgId ts
      = { state := st, emits := [], acks := [Ack.failure "Recipient not connected"] } := by
  simp only [privateMessage]
  rw [if_neg (not_or.mpr ⟨hto, htext⟩), if_neg (by simp [habs])]
  rfl

def c7State : ServerState :=
  (userJoin (connect initState "s1") "s1" { username := some "Sam" } true).state

/-- Witness for the amended C7: a registered sender messages an unknown id. -/
theorem privateMessage_unknown_recipient_witness :
    (jsTrim (jsOr (some "ghost") "") ≠ "" ∧ jsTrim (jsOr (some "psst") "") ≠ "" ∧
     mapHas c7State.users (jsTrim (jsOr (some "ghost") "")) = false) ∧
    privateMessage c7State "s1" { toId := some "ghost", text := some "psst" } true 1 "t"
      = { state := c7State, emits := [], acks := [Ack.failure "Recipient not connected"] } :=
  ⟨⟨by decide, by decide, by decide⟩,
   privateMessage_unknown_recipient c7State "s1" { toId := some "ghost", text := some "psst" }
     1 "t" (by decide) (by decide) (by decide)⟩

def c8Base : ServerState :=
  (userJoin (connect (userJoin (connect initState "t1") "t1" { username := some "Tina" } true).state
    "s1") "s1" { username := some "Sam" } true).state

def c8Eaves : ServerState := (joinRoom (connect c8Base "c1") "c1" (some "t1") true).state

/-- C8 counterexample: `io.to(to)` targets the adapter room named by the
recipient's socket id, and `join_room` accepts any room name — so a third
connection "c1" that has joined the room named "t1" also receives the private
message: it is delivered to three connections, not exactly the two claimed. -/
theorem privateMessage_eavesdrop_cex :
    mapHas c8Eaves.users "t1" = true ∧
    privDeliveries (privateMessage c8Eaves "s1" { toId := some "t1", text := some "psst" }
        true 9 "t").emits = ["t1", "c1", "s1"] := by decide

/-- C8 (amended): a successful `private_message` to a registered target T
emits exactly two `private_message` events — one via `io.to(T)` (the adapter
room named by T's socket id) and one to the sender S. Provided no other
connection has joined the room named after T's id (so that room contains
exactly T), the message is delivered exactly twice: once to T and once to S,
and to no other connection. -/
theorem privateMessage_two_deliveries
    (st : ServerState) (sid : String) (p : PrivateMessagePayload) (msgId : Nat) (ts : String)
    (hto : jsTrim (jsOr p.toId "") ≠ "") (htext : jsTrim (jsOr p.text "") ≠ "")
    (hreg : mapHas st.users (jsTrim (jsOr p.toId "")) = true)
    (hroom : roomMembers st.rooms (jsTrim (jsOr p.toId "")) = [jsTrim (jsOr p.toId "")]) :
    privDeliveries (privateMessage st sid p true msgId ts).emits
      = [jsTrim (jsOr p.toId ""), sid] ∧
    (privateMessage st sid p true msgId ts).acks = [Ack.success] := by
  simp only [privateMessage]
  rw [if_neg (not_or.mpr ⟨hto, htext⟩), if_pos hreg]
  refine ⟨?_, rfl⟩
  show roomMembers st.rooms (jsTrim (jsOr p.toId "")) ++ ([sid] ++ [])
      = [jsTrim (jsOr p.toId ""), sid]
  rw [hroom]
  rfl

/-- Witness for the amended C8: with only T and S connected, the private
message is delivered exactly to T and S. -/
theorem privateMessage_two_deliveries_witness :
    (jsTrim (jsOr (some "t1") "") ≠ "" ∧ jsTrim (jsOr (some "hey") "") ≠ "" ∧
     mapHas c8Base.users (jsTrim (jsOr (some "t1") "")) = true ∧
     roomMembers c8Base.rooms (jsTrim (jsOr (some "t1") ""))
       = [jsTrim (jsOr (some "t1") "")]) ∧
    (privDeliveries (privateMessage c8Base "s1" { toId := some "t1", text := some "hey" }
        true 5 "t").emits = [jsTrim (jsOr (some "t1") ""), "s1"] ∧
     (privateMessage c8Base "s1" { toId := some "t1", text := some "hey" } true 5 "t").acks
       = [Ack.success]) :=
  ⟨⟨by decide, by decide, by decide, by decide⟩,
   privateMessage_two_deliveries c8Base "s1" { toId := some "t1", text := some "hey" } 5 "t"
     (by decide) (by decide) (by decide) (by decide)⟩

def c9a : ServerState := (joinRoom (connect initState "s1") "s1" (some "A") true).state

def c9b : HandlerResult := userJoin c9a "s1" { username := some "Alice" } true

def c9c : ServerState := (userJoin (connect c9b.state "s2") "s2" { username := some "Alice" } true).state

/-- C9 counterexample: (i) a connection that joined room "A" before
identifying still has current room "A" after a successful room-less
`user_join` (the claim requires `none`), and (ii) a second connection
registering the same display name makes "Alice" appear twice in the roster
(the claim requires exactly once). -/
theorem userJoin_roster_cex :
    c9b.acks = [Ack.success] ∧
    (getSock c9b.state "s1").room = some "A" ∧
    (c9c.users.filter (fun q => q.2 == "Alice")).length = 2 := by decide

/-- C9 (amended): after a successful `user_join`, the stored current room is
the supplied room when one was supplied and is otherwise unchanged from before
the call (`none` only for a connection that was in no room); and, when the
registry keys are distinct, the roster contains exactly one entry keyed by
this connection id, carrying the new display name (the same display name may
appear under other connection ids). -/
theorem userJoin_success_state
    (st : ServerState) (sid : String) (p : UserJoinPayload)
    (hkeys : (st.users.map Prod.fst).Nodup)
    (hs : (findSock st.socks sid).isSome)
    (hn : jsSlice 50 (jsTrim (jsOr p.username "Anonymous")) ≠ "") :
    (userJoin st sid p true).acks = [Ack.success] ∧
    (getSock (userJoin st sid p true).state sid).room
      = (if jsTruthyStr p.room then p.room else (getSock st sid).room) ∧
    (userJoin st sid p true).state.users.filter (fun q => q.1 == sid)
      = [(sid, jsSlice 50 (jsTrim (jsOr p.username "Anonymous")))] := by
  obtain ⟨s0, hs0⟩ := Option.isSome_iff_exists.mp hs
  simp only [userJoin, if_neg hn]
  by_cases htr : jsTruthyStr p.room = true
  · rw [if_pos htr, if_pos htr]
    refine ⟨rfl, ?_, ?_⟩
    · show ((findSock (updateSocks (updateSocks st.socks sid
          (fun s => { s with
            username := some (jsSlice 50 (jsTrim (jsOr p.username "Anonymous"))) })) sid
          (fun s => { s with room := some (p.room.getD "") })) sid).getD { sid := sid }).room
        = p.room
      rw [findSock_updateSocks _ _
          (fun s => { s with room := some (p.room.getD "") }) (fun s => rfl),
        findSock_updateSocks _ _
          (fun s => { s with
            username := some (jsSlice 50 (jsTrim (jsOr p.username "Anonymous"))) })
          (fun s => rfl),
        hs0]
      cases hpr : p.room with
      | none =>
        rw [hpr] at htr
        exact absurd htr (by decide)
      | some r => rfl
    · show (mapSet st.users sid
          (jsSlice 50 (jsTrim (jsOr p.username "Anonymous")))).filter (fun q => q.1 == sid)
        = [(sid, jsSlice 50 (jsTrim (jsOr p.username "Anonymous")))]
      exact filter_mapSet_self st.users sid _ hkeys
  · rw [if_neg htr, if_neg htr]
    refine ⟨rfl, ?_, ?_⟩
    · show ((findSock (updateSocks st.socks sid
          (fun s => { s with
            username := some (jsSlice 50 (jsTrim (jsOr p.username "Anonymous"))) })) sid).getD
          { sid := sid }).room
        = (getSock st sid).room
      rw [findSock_updateSocks _ _
          (fun s => { s with
            username := some (jsSlice 50 (jsTrim (jsOr p.username "Anonymous"))) })
          (fun s => rfl),
        hs0]
      unfold getSock
      rw [hs0]
      rfl
    · show (mapSet st.users sid
          (jsSlice 50 (jsTrim (jsOr p.username "Anonymous")))).filter (fun q => q.1 == sid)
        = [(sid, jsSlice 50 (jsTrim (jsOr p.username "Anonymous")))]
      exact filter_mapSet_self st.users sid _ hkeys

/-- Witness for the amended C9 on a fresh connection registering "Alice". -/
theorem userJoin_success_state_witness :
    ((((connect initState "s1").users.map Prod.fst).Nodup ∧
      (findSock (connect initState "s1").socks "s1").isSome ∧
      jsSlice 50 (jsTrim (jsOr (some "Alice") "Anonymous")) ≠ "") ∧
     ((userJoin (connect initState "s1") "s1" { username := some "Alice" } true).acks
        = [Ack.success] ∧
      (getSock (userJoin (connect initState "s1") "s1"
          { username := some "Alice" } true).state "s1").room
        = (if jsTruthyStr (none : Option String) then (none : Option String)
           else (getSock (connect initState "s1") "s1").room) ∧
      (userJoin (connect initState "s1") "s1"
          { username := some "Alice" } true).state.users.filter (fun q => q.1 == "s1")
        = [("s1", jsSlice 50 (jsTrim (jsOr (some "Alice") "Anonymous")))])) :=
  ⟨⟨by decide, by decide, by decide⟩,
   userJoin_success_state (connect initState "s1") "s1" { username := some "Alice" }
     (by decide) (by decide) (by decide)⟩

/-- C10: `leave_room(B)` unconditionally deletes the stored current room even
when B differs from the stored room A: afterwards the stored room is `none`,
so room resolution with no explicit payload room (used by `send_message` and
`typing`) falls back to global, and the handler acks ok — although the
connection was never removed from A's delivery set. -/
theorem leaveRoom_clears_room_unconditionally
    (st : ServerState) (sid roomA roomB : String)
    (hs : (findSock st.socks sid).isSome)
    (hmemA : sid ∈ roomMembers st.rooms roomA)
    (hne : roomA ≠ roomB) (hB : roomB ≠ "") :
    (getSock (leaveRoom st sid (some roomB) true).state sid).room = none ∧
    sid ∈ roomMembers (leaveRoom st sid (some roomB) true).state.rooms roomA ∧
    resolvedRoom (leaveRoom st sid (some roomB) true).state sid none = none ∧
    (leaveRoom st sid (some roomB) true).acks = [Ack.success] := by
  obtain ⟨s0, hs0⟩ := Option.isSome_iff_exists.mp hs
  simp only [leaveRoom, if_neg hB]
  have hroomnone : (getSock (updateSock { st with rooms := roomsLeave st.rooms roomB sid } sid
      (fun s => { s with room := none })) sid).room = none := by
    rw [getSock_update st (roomsLeave st.rooms roomB sid) sid
      (fun s => { s with room := none }) (fun s => rfl), hs0]
    rfl
  refine ⟨hroomnone, ?_, ?_, rfl⟩
  · show sid ∈ roomMembers (roomsLeave st.rooms roomB sid) roomA
    exact mem_roomMembers_roomsLeave_ne st.rooms roomA roomB sid sid hne hmemA
  · unfold resolvedRoom
    rw [hroomnone]
    rfl

def c10State : ServerState := (joinRoom (connect initState "s1") "s1" (some "A") true).state

/-- Witness for C10: in room "A", leaving room "B" clears the stored room while
"A" membership persists. -/
theorem leaveRoom_clears_room_unconditionally_witness :
    ((findSock c10State.socks "s1").isSome ∧
     "s1" ∈ roomMembers c10State.rooms "A" ∧
     ("A" : String) ≠ "B" ∧ ("B" : String) ≠ "") ∧
    ((getSock (leaveRoom c10State "s1" (some "B") true).state "s1").room = none ∧
     "s1" ∈ roomMembers (leaveRoom c10State "s1" (some "B") true).state.rooms "A" ∧
     resolvedRoom (leaveRoom c10State "s1" (some "B") true).state "s1" none = none ∧
     (leaveRoom c10State "s1" (some "B") true).acks = [Ack.success]) :=
  ⟨⟨by decide, by decide, by decide, by decide⟩,
   leaveRoom_clears_room_unconditionally c10State "s1" "A" "B"
     (by decide) (by decide) (by decide) (by decide)⟩

example :
    (userJoin (connect initState "s1") "s1" { username := some " Alice " } true).acks
      = [Ack.success] := by decide

example :
    mapGet (userJoin (connect initState "s1") "s1" { username := some " Alice " } true).state.users
      "s1" = some "Alice" := by decide

example :
    (joinRoom (connect initState "s1") "s1" (some "A") true).state.rooms
      = [("s1", ["s1"]), ("A", ["s1"])] := by decide

end ChatServer
